import Mathlib

/-!
Verification of the Db2 metadata manager (src/main.py).

The program is a single-table key-value store over a DB2 connection with an
interactive command shell.  We embed it shallowly:

* the backing table `metadata` (primary key `key`, column `value`) is a list
  of rows; the primary-key constraint is the predicate `keysNodup`;
* each SQL statement issued by the CRUD functions is embedded by its
  semantics on that list (MERGE = update-in-place or append, SELECT by key =
  first matching row, DELETE = filter, ORDER BY key = merge sort on keys,
  LIKE = the standard wildcard matcher with `%` and `_`);
* the command dispatcher `repl` and the scoped connection manager
  `DB2Connections.__enter__/__exit__` (as used by the `with` statement of
  `main`) are embedded as step functions over explicit input and outcome
  types, with a per-command fault flag standing for a driver exception
  raised while executing a prepared statement.
-/

namespace DB2Meta

/-- A row of the `metadata` table: `(key, value)`. -/
abbrev Row := String × String

/-- The state of the `metadata` table: its rows, in unspecified order. -/
abbrev Table := List Row

/-- The primary-key constraint of the `metadata` table: keys are distinct. -/
def keysNodup (t : Table) : Prop := (t.map (·.1)).Nodup

instance (t : Table) : Decidable (keysNodup t) :=
  inferInstanceAs (Decidable (List.Nodup (List.map Prod.fst t)))

/-- Messages printed by the CRUD functions and the dispatcher, one
constructor per distinct `print` site of src/main.py. -/
inductive Msg where
  | keyTooLong (key : String)
  | valueTooLong (value : String)
  | setOk (key value : String)
  | gotValue (key value : String)
  | notFound (key : String)
  | deleted (key : String)
  | tableOut (rows : Table)
  | helpText
  | usageSet
  | usageGet
  | usageDel
  | usageFind
  | unknownCmd (cmd : String)
  deriving DecidableEq

/-- Result of one store operation: the table afterwards, whether a database
statement was executed, and the line printed. -/
structure OpResult where
  table : Table
  dbCall : Bool
  msg : Msg
  deriving DecidableEq

/-- Semantics of the MERGE statement of `set_key`: the row matching on the
key is updated to the new value, and if no row matches a new row is
inserted. -/
def upsertRow (t : Table) (key value : String) : Table :=
  if t.any (fun r => r.1 == key) then
    t.map (fun r => if r.1 == key then (key, value) else r)
  else
    t ++ [(key, value)]

/-- `set_key(conn, key, value)` of src/main.py: length validation, then the
MERGE upsert. -/
def set_key (t : Table) (key value : String) : OpResult :=
  if key.length > 80 then
    ⟨t, false, .keyTooLong key⟩
  else if value.length > 200 then
    ⟨t, false, .valueTooLong value⟩
  else
    ⟨upsertRow t key value, true, .setOk key value⟩

/-- `get_key(conn, key)` of src/main.py: `SELECT value FROM metadata WHERE
key = ?`, first fetched row or `None`. -/
def get_key (t : Table) (key : String) : Option String :=
  (t.find? (fun r => r.1 == key)).map (·.2)

/-- `delete_key(conn, key)` of src/main.py: `DELETE FROM metadata WHERE
key = ?`, then an unconditional success message (the affected-row count is
not inspected). -/
def delete_key (t : Table) (key : String) : Table × Msg :=
  (t.filter (fun r => r.1 != key), .deleted key)

/-- The `ORDER BY key` clause: sort rows by key, ascending. -/
def rowLe (a b : Row) : Bool := decide (a.1 ≤ b.1)

/-- Strict key order on rows, used to state sortedness of results. -/
def rowLt (a b : Row) : Prop := a.1 < b.1

/-- `list_all(conn)` of src/main.py: `SELECT key, value FROM metadata ORDER
BY key`, all rows fetched into a list. -/
def list_all (t : Table) : Table := t.mergeSort rowLe

/-- The SQL LIKE matcher on character lists: `%` matches any run of
characters (the rest of the pattern must match some suffix of the string),
`_` matches any single character, raw characters match themselves. -/
def likeMatchAux : List Char → List Char → Bool
  | [], s => s.isEmpty
  | p :: pt, s =>
    if p == '%' then s.tails.any (fun suf => likeMatchAux pt suf)
    else
      match s with
      | [] => false
      | c :: cs => (p == '_' || p == c) && likeMatchAux pt cs

/-- SQL LIKE on strings. -/
def likeMatch (pattern s : String) : Bool :=
  likeMatchAux pattern.toList s.toList

/-- `search_keys(conn, pattern)` of src/main.py: `SELECT key, value FROM
metadata WHERE key LIKE ? ORDER BY key`. -/
def search_keys (t : Table) (pattern : String) : Table :=
  (t.filter (fun r => likeMatch pattern r.1)).mergeSort rowLe

/-- Python's `"needle" in hay` substring test, as used on driver error
text by `_create_table_if_not_exists`. -/
def strContains (hay needle : String) : Bool :=
  hay.toList.tails.any (fun tl => needle.toList.isPrefixOf tl)

/-! ### The command dispatcher `repl` -/

/-- Whitespace, for Python's `str.strip` and `str.split` on command lines. -/
def pyIsSpace (c : Char) : Bool :=
  c == ' ' || c == '\t' || c == '\n' || c == '\r'

/-- Python's `str.strip()`: remove leading and trailing whitespace. -/
def pyStrip (s : String) : String :=
  ⟨((s.toList.dropWhile pyIsSpace).reverse.dropWhile pyIsSpace).reverse⟩

/-- Python's `str.lower()` (ASCII, as used on command words). -/
def pyLower (s : String) : String :=
  ⟨s.toList.map Char.toLower⟩

/-- Python's `line.split(maxsplit=2)`: split on whitespace runs into at most
three parts, the third keeping its internal spacing. -/
def pySplit2 (s : String) : List String :=
  let l1 := s.toList.dropWhile pyIsSpace
  if l1.isEmpty then []
  else
    let t1 := l1.takeWhile (fun c => !pyIsSpace c)
    let r1 := (l1.dropWhile (fun c => !pyIsSpace c)).dropWhile pyIsSpace
    if r1.isEmpty then [⟨t1⟩]
    else
      let t2 := r1.takeWhile (fun c => !pyIsSpace c)
      let r2 := (r1.dropWhile (fun c => !pyIsSpace c)).dropWhile pyIsSpace
      if r2.isEmpty then [⟨t1⟩, ⟨t2⟩] else [⟨t1⟩, ⟨t2⟩, ⟨r2⟩]

/-- What processing one command line produces: the loop goes on, the loop
breaks (`exit`/`quit`/`q`), or an uncaught driver exception propagates out
of `repl`. -/
inductive StepResult where
  | cont (db : Table) (out : List Msg)
  | halt (db : Table)
  | raise (db : Table) (e : String)
  deriving DecidableEq

/-- The text of the exception raised when a prepared statement fails
(injected by the per-command fault flag). -/
def queryErrorText : String := "QueryError"

/-- The `match cmd` dispatch of `repl` on the token list `parts`, with
`fault` injecting a driver exception into any database call the command
makes.  Mirrors src/main.py lines 196-246: the command word is
`parts[0].lower()`; there is no exception handler around the command
bodies, so a raised statement error escapes as `.raise`. -/
def execParts (db : Table) (parts : List String) (fault : Bool) : StepResult :=
  match parts with
  | [] => .cont db []
  | w :: args =>
    let cmd := pyLower w
    if cmd == "exit" || cmd == "quit" || cmd == "q" then
      .halt db
    else if cmd == "help" then
      .cont db [.helpText]
    else if cmd == "set" then
      if args.length < 2 then .cont db [.usageSet]
      else
        let r := set_key db (args.getD 0 "") (args.getD 1 "")
        if r.dbCall && fault then .raise db queryErrorText
        else .cont r.table [r.msg]
    else if cmd == "get" then
      if args.length < 1 then .cont db [.usageGet]
      else if fault then .raise db queryErrorText
      else
        match get_key db (args.getD 0 "") with
        | none => .cont db [.notFound (args.getD 0 "")]
        | some v => .cont db [.gotValue (args.getD 0 "") v]
    else if cmd == "del" then
      if args.length < 1 then .cont db [.usageDel]
      else if fault then .raise db queryErrorText
      else
        let r := delete_key db (args.getD 0 "")
        .cont r.1 [r.2]
    else if cmd == "list" then
      if fault then .raise db queryErrorText
      else .cont db [.tableOut (list_all db)]
    else if cmd == "find" then
      if args.length < 1 then .cont db [.usageFind]
      else if fault then .raise db queryErrorText
      else .cont db [.tableOut (search_keys db (args.getD 0 ""))]
    else
      .cont db [.unknownCmd cmd]

/-- One iteration of the `repl` loop body on a raw input line: strip, skip
blank lines, tokenize with `split(maxsplit=2)`, dispatch. -/
def execLine (db : Table) (line : String) (fault : Bool) : StepResult :=
  let stripped := pyStrip line
  if stripped.isEmpty then .cont db []
  else execParts db (pySplit2 stripped) fault

/-- How a whole `repl` run ends: end of input (EOFError/KeyboardInterrupt
caught at `input()`, loop breaks), an explicit quit command, or an uncaught
exception escaping the loop. -/
inductive ReplOutcome where
  | eof (db : Table)
  | quit (db : Table)
  | exn (db : Table) (e : String)
  deriving DecidableEq

/-- `repl(conn)`: process the input lines in order.  Each line carries the
fault flag of the database statements it executes.  An exhausted input
stream stands for `input()` raising `EOFError` (or the operator
interrupting), which the loop catches and turns into `break`. -/
def runRepl (db : Table) : List (String × Bool) → ReplOutcome
  | [] => .eof db
  | (line, fault) :: rest =>
    match execLine db line fault with
    | .cont db2 _ => runRepl db2 rest
    | .halt db2 => .quit db2
    | .raise db2 e => .exn db2 e

/-! ### The connection manager and the session -/

/-- Outcome of the `ibm_db.connect` call in `DB2Connections.__enter__`. -/
inductive ConnectOutcome where
  | ok
  | fail (e : String)
  deriving DecidableEq

/-- Outcome of the `ibm_db.exec_immediate` of the CREATE TABLE statement. -/
inductive ExecOutcome where
  | ok
  | err (e : String)
  deriving DecidableEq

/-- `DB2Connections._create_table_if_not_exists`: the statement failure is
swallowed when its text contains `-601` (DB2's duplicate-object error),
otherwise the exception is re-raised. -/
def createTableIfNotExists (r : ExecOutcome) : ExecOutcome :=
  match r with
  | .ok => .ok
  | .err e => if strContains e "-601" then .ok else .err e

/-- Observable record of one program run of `main`: how many times
`ibm_db.connect` succeeded, how many times `ibm_db.close` was called,
whether the command loop was entered, the uncaught exception if any, and
the final table state. -/
structure SessionLog where
  connects : Nat
  closes : Nat
  replRan : Bool
  fatal : Option String
  finalDb : Table
  deriving DecidableEq

/-- The `with DB2Connections(...) as conn: repl(conn)` of `main`, by
Python's context-manager semantics: `__exit__` (which calls
`ibm_db.close`) runs only if `__enter__` returned normally.  `__enter__`
connects and then runs the schema bootstrap, re-raising its failures, so a
fatal bootstrap error escapes `__enter__` and `__exit__` never runs.  If
the body `repl(conn)` raises, `__exit__` runs and the exception then
propagates. -/
def runSession (c : ConnectOutcome) (boot : ExecOutcome) (db0 : Table)
    (inp : List (String × Bool)) : SessionLog :=
  match c with
  | .fail e => ⟨0, 0, false, some e, db0⟩
  | .ok =>
    match createTableIfNotExists boot with
    | .err e => ⟨1, 0, false, some e, db0⟩
    | .ok =>
      match runRepl db0 inp with
      | .eof db1 => ⟨1, 1, true, none, db1⟩
      | .quit db1 => ⟨1, 1, true, none, db1⟩
      | .exn db1 e => ⟨1, 1, true, some e, db1⟩

/-! ### Helper lemmas about the store operations -/

theorem get_key_upsertRow (t : Table) (k v : String) :
    get_key (upsertRow t k v) k = some v := by
  induction t with
  | nil => simp [upsertRow, get_key]
  | cons r rest ih =>
    by_cases hr : r.1 = k
    · simp [upsertRow, get_key, hr]
    · have hr' : (r.1 == k) = false := beq_eq_false_iff_ne.mpr hr
      cases ha : rest.any (fun x => x.1 == k) with
      | true =>
        have h1 : upsertRow (r :: rest) k v =
            r :: rest.map (fun x => if x.1 == k then (k, v) else x) := by
          simp [upsertRow, ha, hr', hr]
        have h2 : upsertRow rest k v =
            rest.map (fun x => if x.1 == k then (k, v) else x) := by
          simp [upsertRow, ha]
        rw [h1, get_key, List.find?_cons_of_neg _ (by simp [hr'])]
        rw [h2, get_key] at ih
        exact ih
      | false =>
        have h1 : upsertRow (r :: rest) k v = r :: (rest ++ [(k, v)]) := by
          simp [upsertRow, ha, hr']
        have h2 : upsertRow rest k v = rest ++ [(k, v)] := by
          simp [upsertRow, ha]
        rw [h1, get_key, List.find?_cons_of_neg _ (by simp [hr'])]
        rw [h2, get_key] at ih
        exact ih

theorem set_key_table_of_valid (t : Table) (k v : String)
    (hk : k.length ≤ 80) (hv : v.length ≤ 200) :
    set_key t k v = ⟨upsertRow t k v, true, .setOk k v⟩ := by
  have hk' : ¬ k.length > 80 := by omega
  have hv' : ¬ v.length > 200 := by omega
  simp [set_key, hk', hv']

/-- C1: for every key of length at most 80 and value of length at most 200,
`set_key` with that key and value followed by `get_key` with the same key,
on the same store state, returns exactly that value. -/
theorem c1_set_then_get (t : Table) (k v : String)
    (hk : k.length ≤ 80) (hv : v.length ≤ 200) :
    get_key (set_key t k v).table k = some v := by
  rw [set_key_table_of_valid t k v hk hv]
  exact get_key_upsertRow t k v

theorem c1_set_then_get_witness :
    "app.name".length ≤ 80 ∧ "hello".length ≤ 200 ∧
      get_key (set_key [("x", "0")] "app.name" "hello").table "app.name" =
        some "hello" :=
  ⟨by decide, by decide,
    c1_set_then_get [("x", "0")] "app.name" "hello" (by decide) (by decide)⟩

/-- C6: a key longer than 80 characters, or a value longer than 200
characters, makes `set_key` perform no database call and leave the table
unchanged, and the error names the offending field with its value: an
overlong key is always reported as the key error naming that key, and an
overlong value under a valid key is reported as the value error naming
that value. -/
theorem c6_set_key_validation (t : Table) (k v : String)
    (h : k.length > 80 ∨ v.length > 200) :
    (set_key t k v).table = t ∧ (set_key t k v).dbCall = false ∧
      (k.length > 80 → (set_key t k v).msg = .keyTooLong k) ∧
      (k.length ≤ 80 → v.length > 200 → (set_key t k v).msg = .valueTooLong v) := by
  by_cases hk : k.length > 80
  · simp [set_key, hk]
  · have hv : v.length > 200 := by omega
    have hk2 : ¬ k.length > 80 := hk
    simp [set_key, hk2, hv]

set_option maxRecDepth 4000 in
theorem c6_set_key_validation_witness :
    ((String.mk (List.replicate 81 'a')).length > 80 ∨ "v".length > 200) ∧
      ((set_key [] (String.mk (List.replicate 81 'a')) "v").table = [] ∧
        (set_key [] (String.mk (List.replicate 81 'a')) "v").dbCall = false ∧
        ((String.mk (List.replicate 81 'a')).length > 80 →
          (set_key [] (String.mk (List.replicate 81 'a')) "v").msg =
            .keyTooLong (String.mk (List.replicate 81 'a'))) ∧
        ((String.mk (List.replicate 81 'a')).length ≤ 80 → "v".length > 200 →
          (set_key [] (String.mk (List.replicate 81 'a')) "v").msg =
            .valueTooLong "v")) ∧
      ("ok".length ≤ 80 → (String.mk (List.replicate 201 'b')).length > 200 →
        (set_key [] "ok" (String.mk (List.replicate 201 'b'))).msg =
          .valueTooLong (String.mk (List.replicate 201 'b'))) :=
  ⟨by decide,
    c6_set_key_validation [] (String.mk (List.replicate 81 'a')) "v" (by decide),
    (c6_set_key_validation [] "ok" (String.mk (List.replicate 201 'b'))
      (by right; decide)).2.2.2⟩

/-- C7: a key absent from the table makes `get_key` return `none` (the
NotFound sentinel), which is distinct from a stored empty-string value:
after storing `""` under the key, `get_key` returns `some ""`, not
`none`. -/
theorem c7_get_key_absent (t : Table) (k : String)
    (habs : ∀ r ∈ t, r.1 ≠ k) (hk : k.length ≤ 80) :
    get_key t k = none ∧
      get_key (set_key t k "").table k = some "" ∧
      (some "" : Option String) ≠ none := by
  refine ⟨?_, c1_set_then_get t k "" hk (by simp), by simp⟩
  simp only [get_key, Option.map_eq_none', List.find?_eq_none]
  intro r hr
  simpa using habs r hr

theorem c7_get_key_absent_witness :
    (∀ r ∈ ([("b", "1")] : Table), r.1 ≠ "a") ∧ "a".length ≤ 80 ∧
      (get_key [("b", "1")] "a" = none ∧
        get_key (set_key [("b", "1")] "a" "").table "a" = some "" ∧
        (some "" : Option String) ≠ none) :=
  ⟨by decide, by decide, c7_get_key_absent [("b", "1")] "a" (by decide) (by decide)⟩

theorem rowLe_trans (a b c : Row) (h1 : rowLe a b) (h2 : rowLe b c) :
    rowLe a c := by
  simp only [rowLe, decide_eq_true_eq] at *
  exact le_trans h1 h2

theorem rowLe_total (a b : Row) : rowLe a b || rowLe b a := by
  simp only [rowLe]
  rcases le_total a.1 b.1 with h | h <;> simp [h]

instance : IsAntisymm Row rowLt :=
  ⟨fun _ _ h1 h2 => absurd h2 (lt_asymm h1)⟩

/-- Sorting rows of a duplicate-free table by key yields a strictly
increasing key sequence. -/
theorem sorted_rowLt_mergeSort (l : Table) (h : keysNodup l) :
    (l.mergeSort rowLe).Pairwise rowLt := by
  have hle : (l.mergeSort rowLe).Pairwise (fun a b => rowLe a b = true) :=
    List.sorted_mergeSort rowLe_trans rowLe_total l
  have hperm : List.Perm (l.mergeSort rowLe) l := List.mergeSort_perm l rowLe
  have hnd : ((l.mergeSort rowLe).map (fun r : Row => r.1)).Nodup := by
    have h2 : (List.map (fun r : Row => r.1) l).Nodup := h
    exact (List.Perm.nodup_iff (hperm.map _)).mpr h2
  have hne : (l.mergeSort rowLe).Pairwise (fun a b => a.1 ≠ b.1) :=
    List.pairwise_map.mp hnd
  refine hle.imp₂ (fun a b h1 h2 => ?_) hne
  have h1' : a.1 ≤ b.1 := by simpa [rowLe] using h1
  exact lt_of_le_of_ne h1' h2

theorem keysNodup_filter (l : Table) (m : Row → Bool) (h : keysNodup l) :
    keysNodup (l.filter m) :=
  List.Nodup.sublist (List.Sublist.map _ (List.filter_sublist l)) h

theorem likeMatchAux_percent (s : List Char) : likeMatchAux ['%'] s = true := by
  simp only [likeMatchAux, beq_self_eq_true, if_true, List.any_eq_true]
  exact ⟨[], by simp [List.mem_tails], by simp [likeMatchAux]⟩

/-- A pattern of plain characters followed by a single trailing `%` matches
exactly the strings beginning with those characters. -/
theorem likeMatchAux_trailing_percent (pre : List Char) (s : List Char)
    (hp : ∀ c ∈ pre, c ≠ '%' ∧ c ≠ '_') :
    likeMatchAux (pre ++ ['%']) s = pre.isPrefixOf s := by
  induction pre generalizing s with
  | nil => simp [likeMatchAux_percent, List.isPrefixOf]
  | cons p pt ih =>
    have hp1 := hp p (List.mem_cons_self p pt)
    have hpt : ∀ c ∈ pt, c ≠ '%' ∧ c ≠ '_' :=
      fun c hc => hp c (List.mem_cons_of_mem p hc)
    cases s with
    | nil =>
      simp [likeMatchAux, List.isPrefixOf, beq_eq_false_iff_ne.mpr hp1.1]
    | cons c cs =>
      simp [likeMatchAux, beq_eq_false_iff_ne.mpr hp1.1,
        beq_eq_false_iff_ne.mpr hp1.2, ih cs hpt, List.isPrefixOf]

theorem likeMatch_app_percent (s : String) :
    likeMatch "app.%" s = "app.".toList.isPrefixOf s.toList := by
  have h : ("app.%".toList) = "app.".toList ++ ['%'] := by decide
  rw [likeMatch, h]
  exact likeMatchAux_trailing_percent "app.".toList s.toList (by decide)

/-- C9: on a table satisfying the primary-key constraint, `search_keys`
returns exactly the rows of `list_all` whose keys match the LIKE pattern,
in the same (ascending) order; and the pattern `app.%` matches exactly the
keys beginning with `app.`. -/
theorem c9_search_eq_filter_list_all (t : Table) (p : String) (h : keysNodup t) :
    search_keys t p = (list_all t).filter (fun r => likeMatch p r.1) ∧
      ∀ s : String, likeMatch "app.%" s = "app.".toList.isPrefixOf s.toList := by
  refine ⟨?_, likeMatch_app_percent⟩
  have hperm : List.Perm (search_keys t p)
      ((list_all t).filter (fun r => likeMatch p r.1)) := by
    unfold search_keys list_all
    exact (List.mergeSort_perm _ _).trans
      (((List.mergeSort_perm t rowLe).filter _).symm)
  have hs1 : (search_keys t p).Pairwise rowLt :=
    sorted_rowLt_mergeSort _ (keysNodup_filter t _ h)
  have hs2 : ((list_all t).filter (fun r => likeMatch p r.1)).Pairwise rowLt :=
    List.Pairwise.sublist (List.filter_sublist _) (sorted_rowLt_mergeSort t h)
  exact List.eq_of_perm_of_sorted hperm hs1 hs2

theorem c9_search_eq_filter_list_all_witness :
    keysNodup [("app.a", "1"), ("zz", "2"), ("app.b", "3")] ∧
      (search_keys [("app.a", "1"), ("zz", "2"), ("app.b", "3")] "app.%" =
        (list_all [("app.a", "1"), ("zz", "2"), ("app.b", "3")]).filter
          (fun r => likeMatch "app.%" r.1) ∧
       ∀ s : String, likeMatch "app.%" s = "app.".toList.isPrefixOf s.toList) :=
  ⟨by decide,
    c9_search_eq_filter_list_all [("app.a", "1"), ("zz", "2"), ("app.b", "3")]
      "app.%" (by decide)⟩

/-- C8: deleting a key absent from the table reports success and leaves
the table state entirely unchanged. -/
theorem c8_delete_key_absent (t : Table) (k : String)
    (habs : ∀ r ∈ t, r.1 ≠ k) :
    delete_key t k = (t, Msg.deleted k) := by
  simp only [delete_key, Prod.mk.injEq, and_true]
  rw [List.filter_eq_self]
  intro r hr
  simpa using habs r hr

theorem keysNodup_upsertRow (t : Table) (k v : String) (h : keysNodup t) :
    keysNodup (upsertRow t k v) := by
  unfold upsertRow
  split
  · rename_i hany
    have hkeys : (t.map (fun r => if r.1 == k then (k, v) else r)).map (·.1) =
        t.map (·.1) := by
      rw [List.map_map]
      refine List.map_congr_left ?_
      intro r _
      by_cases hr : r.1 = k <;> simp [hr]
    unfold keysNodup
    rw [hkeys]
    exact h
  · rename_i hany
    have hk : k ∉ t.map (·.1) := by
      intro hmem
      rcases List.mem_map.mp hmem with ⟨r, hr, hrk⟩
      exact hany (List.any_eq_true.mpr ⟨r, hr, by simp [hrk]⟩)
    unfold keysNodup
    rw [List.map_append]
    simp only [List.map_cons, List.map_nil]
    exact List.Nodup.append h (List.nodup_singleton k)
      (by intro a ha hb; simp at hb; subst hb; exact hk ha)

theorem keysNodup_delete (t : Table) (k : String) (h : keysNodup t) :
    keysNodup (delete_key t k).1 :=
  List.Nodup.sublist (List.Sublist.map _ (List.filter_sublist t)) h

theorem filter_upsertRow_of_mem (t : Table) (k v : String) (hnd : keysNodup t)
    (hmem : t.any (fun r => r.1 == k) = true) :
    (upsertRow t k v).filter (fun r => r.1 == k) = [(k, v)] := by
  unfold upsertRow
  rw [if_pos hmem]
  induction t with
  | nil => simp at hmem
  | cons r rest ih =>
    have hnd' : keysNodup rest := by
      unfold keysNodup at hnd ⊢
      exact (List.nodup_cons.mp hnd).2
    by_cases hr : r.1 = k
    · have hnd2 : ((r :: rest).map (·.1)).Nodup := hnd
      rw [List.map_cons, List.nodup_cons] at hnd2
      have hnotin : k ∉ rest.map (·.1) := by
        rw [← hr]
        exact hnd2.1
      have hmap : (rest.map (fun x => if x.1 == k then (k, v) else x)).filter
          (fun x => x.1 == k) = [] := by
        rw [List.filter_eq_nil_iff]
        intro x hx
        rcases List.mem_map.mp hx with ⟨y, hy, hyx⟩
        by_cases hyk : y.1 = k
        · exact absurd (List.mem_map.mpr ⟨y, hy, hyk⟩) hnotin
        · simp only [beq_eq_false_iff_ne.mpr hyk, if_false] at hyx
          subst hyx
          simp [hyk]
      have hgr : (if r.1 == k then (k, v) else r) = (k, v) := by simp [hr]
      rw [List.map_cons, hgr, List.filter_cons_of_pos (by simp), hmap]
    · have hr' : (r.1 == k) = false := beq_eq_false_iff_ne.mpr hr
      have hany : rest.any (fun x => x.1 == k) = true := by
        simpa [hr'] using hmem
      have hgr : (if r.1 == k then (k, v) else r) = r := by simp [hr]
      rw [List.map_cons, hgr, List.filter_cons_of_neg (by simp [hr'])]
      exact ih hnd' hany

/-- C2: the table holds at most one record per key, and this invariant is
preserved by `set_key` and `delete_key`; for a key already present (and
within the length bounds), `set_key` with a new value leaves exactly one
row for that key, holding the new value. -/
theorem c2_one_row_per_key (t : Table) (k v : String) (hnd : keysNodup t) :
    keysNodup (set_key t k v).table ∧ keysNodup (delete_key t k).1 ∧
      (k.length ≤ 80 → v.length ≤ 200 → k ∈ t.map (·.1) →
        (set_key t k v).table.filter (fun r => r.1 == k) = [(k, v)]) := by
  refine ⟨?_, keysNodup_delete t k hnd, ?_⟩
  · by_cases hk : k.length > 80
    · simpa [set_key, hk] using hnd
    · by_cases hv : v.length > 200
      · simpa [set_key, hk, hv] using hnd
      · rw [set_key_table_of_valid t k v (by omega) (by omega)]
        exact keysNodup_upsertRow t k v hnd
  · intro hk hv hmem
    rw [set_key_table_of_valid t k v hk hv]
    refine filter_upsertRow_of_mem t k v hnd ?_
    rcases List.mem_map.mp hmem with ⟨r, hr, hrk⟩
    exact List.any_eq_true.mpr ⟨r, hr, by simp [hrk]⟩

theorem c2_one_row_per_key_witness :
    keysNodup [("a", "1"), ("b", "2")] ∧
      (keysNodup (set_key [("a", "1"), ("b", "2")] "a" "9").table ∧
        keysNodup (delete_key [("a", "1"), ("b", "2")] "a").1 ∧
        ("a".length ≤ 80 → "9".length ≤ 200 →
          "a" ∈ ([("a", "1"), ("b", "2")] : Table).map (·.1) →
          (set_key [("a", "1"), ("b", "2")] "a" "9").table.filter
            (fun r => r.1 == "a") = [("a", "9")])) :=
  ⟨by decide, c2_one_row_per_key [("a", "1"), ("b", "2")] "a" "9" (by decide)⟩

theorem c8_delete_key_absent_witness :
    (∀ r ∈ ([("b", "1"), ("c", "2")] : Table), r.1 ≠ "a") ∧
      delete_key [("b", "1"), ("c", "2")] "a" =
        ([("b", "1"), ("c", "2")], Msg.deleted "a") :=
  ⟨by decide, c8_delete_key_absent [("b", "1"), ("c", "2")] "a" (by decide)⟩

/-- C3: the claim requires `ibm_db.close` exactly once per successful
connect on every exit path, including a fatal schema-bootstrap failure
after the connection was established.  The code violates this: a bootstrap
failure is re-raised inside `__enter__`, so the `with` statement never
calls `__exit__` and the connection is never closed.  This theorem
evaluates the session at that failing input: one successful connect, zero
closes. -/
theorem c3_bootstrap_failure_skips_close :
    (runSession .ok (.err "SQL0551N not authorized") [] []).connects = 1 ∧
      (runSession .ok (.err "SQL0551N not authorized") [] []).closes = 0 := by
  decide

/-- C4 counterexample: with a driver fault on the first command, the
QueryError is not caught at the dispatcher boundary: the loop ends at the
first command with the exception escaping (`.exn`, not `.eof`), the second
command is never awaited, and the session records an uncaught fatal
error — refuting the claim that the loop resumes instead of terminating
the session. -/
theorem c4_query_error_not_caught_counterexample :
    runRepl [] [("get a", true), ("list", false)] = .exn [] queryErrorText ∧
      (runSession .ok .ok [] [("get a", true), ("list", false)]).fatal =
        some queryErrorText := by
  decide

/-- C4 amended: a QueryError raised while executing a command is NOT
caught at the dispatcher boundary; it propagates out of the command loop
and terminates the session with an uncaught error, ignoring all remaining
commands — though the scoped exit still closes the connection once. -/
theorem c4_query_error_aborts_session (db0 : Table) (l : String) (b : Bool)
    (rest : List (String × Bool)) (db1 : Table) (e : String)
    (h : execLine db0 l b = .raise db1 e) :
    runRepl db0 ((l, b) :: rest) = .exn db1 e ∧
      (runSession .ok .ok db0 ((l, b) :: rest)).fatal = some e ∧
      (runSession .ok .ok db0 ((l, b) :: rest)).closes = 1 := by
  have h1 : runRepl db0 ((l, b) :: rest) = .exn db1 e := by
    simp only [runRepl, h]
  refine ⟨h1, ?_, ?_⟩ <;>
    simp [runSession, createTableIfNotExists, h1]

theorem c4_query_error_aborts_session_witness :
    execLine [] "get a" true = .raise [] queryErrorText ∧
      (runRepl [] [("get a", true)] = .exn [] queryErrorText ∧
        (runSession .ok .ok [] [("get a", true)]).fatal = some queryErrorText ∧
        (runSession .ok .ok [] [("get a", true)]).closes = 1) :=
  ⟨by decide,
    c4_query_error_aborts_session [] "get a" true [] [] queryErrorText (by decide)⟩

/-- C5: a schema-bootstrap failure whose error text contains `-601` (the
backend's "already exists" code, as raised on a second open against the
same backing store) is treated as success — the session is exactly the
one a clean bootstrap gives, and the command loop runs; any other
bootstrap failure is fatal and the command loop is never entered. -/
theorem c5_bootstrap_idempotent (e : String) (db0 : Table)
    (inp : List (String × Bool)) (h : strContains e "-601" = true) :
    runSession .ok (.err e) db0 inp = runSession .ok .ok db0 inp ∧
      (runSession .ok (.err e) db0 inp).replRan = true ∧
      ∀ e2, strContains e2 "-601" = false →
        (runSession .ok (.err e2) db0 inp).fatal = some e2 ∧
        (runSession .ok (.err e2) db0 inp).replRan = false := by
  have hboot : createTableIfNotExists (.err e) = .ok := by
    simp [createTableIfNotExists, h]
  refine ⟨?_, ?_, ?_⟩
  · simp [runSession, createTableIfNotExists, h]
  · simp only [runSession, hboot]
    cases runRepl db0 inp <;> simp
  · intro e2 h2
    have hboot2 : createTableIfNotExists (.err e2) = .err e2 := by
      simp [createTableIfNotExists, h2]
    simp [runSession, hboot2]

theorem c5_bootstrap_idempotent_witness :
    strContains "SQL0601N The object metadata already exists. SQLCODE=-601"
        "-601" = true ∧
      (runSession .ok
          (.err "SQL0601N The object metadata already exists. SQLCODE=-601")
          [] [("list", false)] =
        runSession .ok .ok [] [("list", false)] ∧
      (runSession .ok
          (.err "SQL0601N The object metadata already exists. SQLCODE=-601")
          [] [("list", false)]).replRan = true ∧
      ∀ e2, strContains e2 "-601" = false →
        (runSession .ok (.err e2) [] [("list", false)]).fatal = some e2 ∧
        (runSession .ok (.err e2) [] [("list", false)]).replRan = false) :=
  ⟨by decide,
    c5_bootstrap_idempotent
      "SQL0601N The object metadata already exists. SQLCODE=-601"
      [] [("list", false)] (by decide)⟩

/-- C10: the dispatcher lowercases the first token before matching, so the
dispatch of a command line depends on the command word only through its
lowercase form: two first tokens with the same lowercasing dispatch
identically, for every table state, argument list and fault flag. -/
theorem c10_dispatch_case_insensitive (db : Table) (w1 w2 : String)
    (args : List String) (f : Bool) (h : pyLower w1 = pyLower w2) :
    execParts db (w1 :: args) f = execParts db (w2 :: args) f := by
  simp only [execParts, h]

theorem c10_dispatch_case_insensitive_witness :
    pyLower "SET" = pyLower "set" ∧
      execParts [] ("SET" :: ["a", "b"]) false =
        execParts [] ("set" :: ["a", "b"]) false :=
  ⟨by decide, c10_dispatch_case_insensitive [] "SET" "set" ["a", "b"] false (by decide)⟩

end DB2Meta
